import Mathlib

/-!
Verification of the resource-kind resolution and generic typed-listing
engine of the kubernetes-mcp repository (src/tools/list.go), as a shallow
embedding in Lean 4.  Go strings are Lean `String`, Go `float64` JSON
numbers are modelled as `Int` (the numeric arguments and status fields in
scope are integral), Go `map[string]interface{}` objects are association
lists of string keys and JSON-ish values, pointers that may be nil are
`Option`, and fallible Go functions return `Except String`.  Range loops
follow Go 1.22+ per-iteration variable semantics (the module's dependencies
require a newer toolchain), so taking the address of the loop variable
captures the current element.
-/

namespace KubernetesMcp

/-- The single-quote character, used by the Go code's fmt verbs around
user-supplied tokens in error messages. -/
def quoteChar : Char := Char.ofNat 39

/-- Wrap a string in single quotes, as the Go `fmt.Errorf` format strings do. -/
def sq (s : String) : String := String.singleton quoteChar ++ s ++ String.singleton quoteChar

/-- Models Go `strings.ToLower`: lowercase every character.  (Lean core's
`String.toLower` is the same character map, but its byte-position recursion
does not reduce inside the kernel; this structurally recursive form
does.) -/
def strToLower (s : String) : String := String.mk (s.data.map Char.toLower)

/-- Whether `pre` is a prefix of `l`. -/
def charsLeadWith (pre l : List Char) : Bool :=
  match pre, l with
  | [], _ => true
  | _ :: _, [] => false
  | p :: ps, c :: cs => p == c && charsLeadWith ps cs

/-- Whether `sub` occurs contiguously in `l`. -/
def charsContains (l sub : List Char) : Bool :=
  match l with
  | [] => charsLeadWith sub []
  | c :: cs => charsLeadWith sub (c :: cs) || charsContains cs sub

/-- Models Go `strings.Contains s sub`: `sub` occurs as a contiguous
substring of `s`; the empty string is contained in everything. -/
def strContains (s sub : String) : Bool := charsContains s.data sub.data

/-- Split a character list at every occurrence of `sep`. -/
def splitOnChar (sep : Char) : List Char → List (List Char)
  | [] => [[]]
  | c :: cs =>
    let rest := splitOnChar sep cs
    if c == sep then [] :: rest
    else
      match rest with
      | [] => [[c]]
      | g :: gs => (c :: g) :: gs

/-- Models Go `strings.Split s "/"`: the parts of `s` between slashes;
a string with no slash yields itself as the single part. -/
def strSplitSlash (s : String) : List String :=
  (splitOnChar (Char.ofNat 47) s.data).map String.mk

/-- JSON-ish dynamic value, modelling Go `interface{}` as produced by
`encoding/json` / unstructured Kubernetes objects: strings, numbers
(`float64` in Go, integral here), booleans, null, arrays, objects. -/
inductive JValue where
  | str (s : String)
  | num (n : Int)
  | jbool (b : Bool)
  | null
  | arr (xs : List JValue)
  | obj (fields : List (String × JValue))
deriving Repr

/-- A Go `map[string]interface{}` object: association list keyed by string. -/
abbrev JObj := List (String × JValue)

/-- Key lookup in an object, modelling Go map indexing `m[k]`
(first binding wins; the Go maps in scope have unique keys). -/
def jGet (m : JObj) (k : String) : Option JValue :=
  match m with
  | [] => none
  | (key, v) :: rest => if key == k then some v else jGet rest k

/-- Models the Go type assertion `v.(string)`. -/
def asString : Option JValue → Option String
  | some (JValue.str s) => some s
  | _ => none

/-- Models the Go type assertion `v.(float64)` on a JSON number. -/
def asNum : Option JValue → Option Int
  | some (JValue.num n) => some n
  | _ => none

/-- Models the Go type assertion `v.(bool)`. -/
def asBool : Option JValue → Option Bool
  | some (JValue.jbool b) => some b
  | _ => none

/-- Models the Go type assertion `v.([]interface{})`. -/
def asArr : Option JValue → Option (List JValue)
  | some (JValue.arr xs) => some xs
  | _ => none

/-- Models the Go type assertion `v.(map[string]interface{})`. -/
def asObj : Option JValue → Option JObj
  | some (JValue.obj m) => some m
  | _ => none

/-- A raw unstructured resource item: the `item.Object` map of an
`unstructured.Unstructured`. -/
abbrev RawItem := JObj

/-- Models `unstructured.NestedMap(obj, key)` for a single field: the value
at `key` when it exists and is an object (`found = true` exactly then; the
deep copy the Go helper performs is the identity on immutable values). -/
def nestedMap (o : RawItem) (key : String) : Option JObj :=
  asObj (jGet o key)

/-- Models `unstructured.Unstructured.GetName()`: `metadata.name` as a
string, or the empty string when absent or mistyped. -/
def RawItem.getName (o : RawItem) : String :=
  match nestedMap o "metadata" with
  | some md => (asString (jGet md "name")).getD ""
  | none => ""

/-- Models `unstructured.Unstructured.GetNamespace()`. -/
def RawItem.getNamespace (o : RawItem) : String :=
  match nestedMap o "metadata" with
  | some md => (asString (jGet md "namespace")).getD ""
  | none => ""

/-- Models `unstructured.Unstructured.GetKind()`: the top-level `kind`
string, or the empty string. -/
def RawItem.getKind (o : RawItem) : String :=
  (asString (jGet o "kind")).getD ""

/-- One entry of a `metav1.APIResourceList`: a resource-type descriptor
(`metav1.APIResource`), with its plural `name`, PascalCase `kind`, short
aliases and namespaced flag. -/
structure APIResource where
  name : String
  kind : String
  shortNames : List String
  namespaced : Bool
deriving Repr, DecidableEq

/-- A `metav1.APIResourceList`: one group/version string together with its
resources. -/
structure APIResourceList where
  groupVersion : String
  apiResources : List APIResource
deriving Repr, DecidableEq

/-- The catalog passed to the matchers: `[]*metav1.APIResourceList`, whose
entries are pointers and may be nil. -/
def Catalog := List (Option APIResourceList)

/-- `schema.GroupVersionResource`. -/
structure GroupVersionResource where
  group : String
  version : String
  resource : String
deriving Repr, DecidableEq

/-- `gvrMatch` from list.go: a matched API resource (`*metav1.APIResource`,
a pointer, hence `Option`), its group/version string, and the namespaced
flag captured at match time. -/
structure gvrMatch where
  apiRes : Option APIResource
  groupVersion : String
  namespaced : Bool
deriving Repr, DecidableEq

/-- `newGvrMatch` from list.go; the Go constructor always receives a
non-nil `*metav1.APIResource`. -/
def newGvrMatch (apiRes : APIResource) (groupVersion : String) (namespaced : Bool) : gvrMatch :=
  { apiRes := some apiRes, groupVersion := groupVersion, namespaced := namespaced }

/-- `gvrMatch.ToGroupVersionResource` from list.go: nil when the
group/version string is empty or the resource pointer is nil; otherwise
split `groupVersion` on the first slash into group and version (a single
part is a bare core-group version). -/
def gvrMatch.ToGroupVersionResource (f : gvrMatch) : Option GroupVersionResource :=
  if f.groupVersion == "" then none
  else
    match f.apiRes with
    | none => none
    | some r =>
      let parts := strSplitSlash f.groupVersion
      if parts.length == 1 then
        some { group := "", version := parts.headD "", resource := r.name }
      else
        some { group := parts.headD "", version := (parts.drop 1).headD "", resource := r.name }

/-- The kind of the matched resource; the Go code dereferences
`match.apiRes.Kind` (the pointer is non-nil whenever this is reached). -/
def gvrMatch.kindOf (f : gvrMatch) : String :=
  match f.apiRes with
  | some r => r.kind
  | none => ""

/-- The plural name of the matched resource (`match.apiRes.Name`). -/
def gvrMatch.nameOf (f : gvrMatch) : String :=
  match f.apiRes with
  | some r => r.name
  | none => ""

/-- The short names of the matched resource (`match.apiRes.ShortNames`). -/
def gvrMatch.shortNamesOf (f : gvrMatch) : List String :=
  match f.apiRes with
  | some r => r.shortNames
  | none => []

/-- The inner resource loop of `findGVRByKind`: Go compares the lowercased
plural name and kind to the target, then scans the short names, returning
the first resource that matches and stopping there. -/
def findInResources (target gv : String) : List APIResource → Option gvrMatch
  | [] => none
  | r :: rest =>
    if strToLower r.name == target || strToLower r.kind == target then
      some (newGvrMatch r gv r.namespaced)
    else
      match r.shortNames.find? (fun sn => strToLower sn == target) with
      | some _ => some (newGvrMatch r gv r.namespaced)
      | none => findInResources target gv rest

/-- The outer list loop of `findGVRByKind`: nil list entries are skipped;
scanning stops at the first list containing a match. -/
def findGVRByKindAux (target : String) : Catalog → Option gvrMatch
  | [] => none
  | none :: rest => findGVRByKindAux target rest
  | some l :: rest =>
    match findInResources target l.groupVersion l.apiResources with
    | some m => some m
    | none => findGVRByKindAux target rest

/-- `findGVRByKind` from list.go: lowercase the token, scan for the first
match by plural name, kind, or short name; fail with
`cannot find resource '<kind>'` when nothing matches or the match converts
to a nil `GroupVersionResource`. -/
def findGVRByKind (apiResourceLists : Catalog) (kind : String) : Except String gvrMatch :=
  let target := strToLower kind
  match findGVRByKindAux target apiResourceLists with
  | none => Except.error ("cannot find resource " ++ sq kind)
  | some found =>
    match found.ToGroupVersionResource with
    | none => Except.error ("cannot find resource " ++ sq kind)
    | some _ => Except.ok found

/-- The loop body of `findGVRsByGroupSubstring`: skip nil lists; when the
group/version string contains the (already lowercased) target, append every
resource of the list as a match, preserving order. -/
def findGVRsByGroupSubstringAux (target : String) : Catalog → List gvrMatch
  | [] => []
  | none :: rest => findGVRsByGroupSubstringAux target rest
  | some l :: rest =>
    if strContains l.groupVersion target then
      l.apiResources.map (fun r => newGvrMatch r l.groupVersion r.namespaced)
        ++ findGVRsByGroupSubstringAux target rest
    else
      findGVRsByGroupSubstringAux target rest

/-- `findGVRsByGroupSubstring` from list.go: lowercase the fragment, then
include every resource of every list whose group/version string contains
it.  Total: an empty result is not an error (the Go function's error result
is always nil). -/
def findGVRsByGroupSubstring (apiResourceLists : Catalog) (groupSubstring : String) : List gvrMatch :=
  findGVRsByGroupSubstringAux (strToLower groupSubstring) apiResourceLists

/-- `ListResourcesInput` from list.go. -/
structure ListResourcesInput where
  kind : String
  groupFilter : String
  namespace_ : String
  labelSelector : String
  fieldSelector : String
  limit : Int
  timeoutSeconds : Int
  showDetails : Bool
deriving Repr, DecidableEq

/-- `PodSummary` from list.go. -/
structure PodSummary where
  name : String
  namespace_ : String
  phase : String
  ready : Bool
  restartCount : Int
  startTime : String
deriving Repr, DecidableEq

/-- `DeploymentSummary` from list.go. -/
structure DeploymentSummary where
  name : String
  namespace_ : String
  replicas : Int
  available : Int
  unavailable : Int
  updated : Int
  ready : Int
deriving Repr, DecidableEq

/-- `ServiceSummary` from list.go. -/
structure ServiceSummary where
  name : String
  namespace_ : String
  svcType : String
  clusterIP : String
  ports : List String
deriving Repr, DecidableEq

/-- `IngressSummary` from list.go. -/
structure IngressSummary where
  name : String
  namespace_ : String
  hosts : List String
  addresses : List String
deriving Repr, DecidableEq

/-- `ResourceWithStatus` from list.go; `status` is `interface{}`, set only
when a status map is found. -/
structure ResourceWithStatus where
  name : String
  namespace_ : String
  kind : String
  status : Option JObj
deriving Repr

/-- One projected item of the `listResourcesWithStatus` result slice
(`[]interface{}` in Go): one variant per specially-summarized kind plus the
generic fallback. -/
inductive Summary where
  | pod (p : PodSummary)
  | deployment (d : DeploymentSummary)
  | service (s : ServiceSummary)
  | ingress (i : IngressSummary)
  | generic (r : ResourceWithStatus)
deriving Repr

/-- The body of the loop over `containerStatuses` in the `case "pod"`
branch: an object entry conjoins its boolean `ready` into the running
`allReady` and adds its numeric `restartCount` into the running count; a
missing or mistyped field leaves the accumulator untouched, as does a
non-object entry. -/
def podCsStep (acc : Bool × Int) (cs : JValue) : Bool × Int :=
  match cs with
  | JValue.obj csMap =>
    let acc1 := match asBool (jGet csMap "ready") with
      | some ready => (acc.1 && ready, acc.2)
      | none => acc
    match asNum (jGet csMap "restartCount") with
    | some rc => (acc1.1, acc1.2 + rc)
    | none => acc1
  | _ => acc

/-- The `case "pod"` branch of `listResourcesWithStatus`: phase and
startTime from the status map; `ready` and `restartCount` are computed by
the loop over `containerStatuses` only when that field is present as an
array (otherwise they keep their zero values `false` and `0`). -/
def projectPod (item : RawItem) : PodSummary :=
  let pod0 : PodSummary :=
    { name := item.getName, namespace_ := item.getNamespace,
      phase := "", ready := false, restartCount := 0, startTime := "" }
  match nestedMap item "status" with
  | none => pod0
  | some status =>
    let pod1 := match asString (jGet status "phase") with
      | some phase => { pod0 with phase := phase }
      | none => pod0
    let pod2 := match asString (jGet status "startTime") with
      | some st => { pod1 with startTime := st }
      | none => pod1
    match asArr (jGet status "containerStatuses") with
    | some csArr =>
      let acc := csArr.foldl podCsStep (true, 0)
      { pod2 with ready := acc.1, restartCount := acc.2 }
    | none => pod2

/-- The `case "deployment"` branch of `listResourcesWithStatus`: each
replica counter independently defaults to zero when absent or mistyped. -/
def projectDeployment (item : RawItem) : DeploymentSummary :=
  let dep0 : DeploymentSummary :=
    { name := item.getName, namespace_ := item.getNamespace,
      replicas := 0, available := 0, unavailable := 0, updated := 0, ready := 0 }
  match nestedMap item "status" with
  | none => dep0
  | some status =>
    let dep1 := match asNum (jGet status "replicas") with
      | some v => { dep0 with replicas := v }
      | none => dep0
    let dep2 := match asNum (jGet status "availableReplicas") with
      | some v => { dep1 with available := v }
      | none => dep1
    let dep3 := match asNum (jGet status "unavailableReplicas") with
      | some v => { dep2 with unavailable := v }
      | none => dep2
    let dep4 := match asNum (jGet status "updatedReplicas") with
      | some v => { dep3 with updated := v }
      | none => dep3
    match asNum (jGet status "readyReplicas") with
    | some v => { dep4 with ready := v }
    | none => dep4

/-- The port-string construction inside the `case "service"` branch: the
name followed by a colon when present, then the decimal port number when
present, then a slash and the protocol when present, concatenated with no
other separators. -/
def formatPort (portMap : JObj) : String :=
  let s0 := ""
  let s1 := match asString (jGet portMap "name") with
    | some name => s0 ++ name ++ ":"
    | none => s0
  let s2 := match asNum (jGet portMap "port") with
    | some port => s1 ++ toString port
    | none => s1
  match asString (jGet portMap "protocol") with
  | some protocol => s2 ++ "/" ++ protocol
  | none => s2

/-- The loop over `spec.ports` in the `case "service"` branch: entries that
are not objects are skipped; each object entry contributes its formatted
port string, in order. -/
def collectPorts : List JValue → List String
  | [] => []
  | JValue.obj portMap :: rest => formatPort portMap :: collectPorts rest
  | _ :: rest => collectPorts rest

/-- The `case "service"` branch of `listResourcesWithStatus`. -/
def projectService (item : RawItem) : ServiceSummary :=
  let svc0 : ServiceSummary :=
    { name := item.getName, namespace_ := item.getNamespace,
      svcType := "", clusterIP := "", ports := [] }
  match nestedMap item "spec" with
  | none => svc0
  | some spec =>
    let svc1 := match asString (jGet spec "type") with
      | some t => { svc0 with svcType := t }
      | none => svc0
    let svc2 := match asString (jGet spec "clusterIP") with
      | some cip => { svc1 with clusterIP := cip }
      | none => svc1
    match asArr (jGet spec "ports") with
    | some ports => { svc2 with ports := collectPorts ports }
    | none => svc2

/-- The loop over `status.loadBalancer.ingress[]` in the `case "ingress"`
branch: per entry the `ip` then the `hostname`, in array order; non-object
entries contribute nothing. -/
def collectAddresses : List JValue → List String
  | [] => []
  | JValue.obj addrMap :: rest =>
    let ipPart := match asString (jGet addrMap "ip") with
      | some ip => [ip]
      | none => []
    let hostPart := match asString (jGet addrMap "hostname") with
      | some hostname => [hostname]
      | none => []
    ipPart ++ hostPart ++ collectAddresses rest
  | _ :: rest => collectAddresses rest

/-- The loop over `spec.rules[]` in the `case "ingress"` branch: each
object entry with a string `host` contributes it, in order. -/
def collectHosts : List JValue → List String
  | [] => []
  | JValue.obj ruleMap :: rest =>
    match asString (jGet ruleMap "host") with
    | some host => host :: collectHosts rest
    | none => collectHosts rest
  | _ :: rest => collectHosts rest

/-- The `case "ingress"` branch of `listResourcesWithStatus`. -/
def projectIngress (item : RawItem) : IngressSummary :=
  let ing0 : IngressSummary :=
    { name := item.getName, namespace_ := item.getNamespace,
      hosts := [], addresses := [] }
  let ing1 := match nestedMap item "status" with
    | none => ing0
    | some status =>
      match asObj (jGet status "loadBalancer") with
      | some lb =>
        match asArr (jGet lb "ingress") with
        | some ingressArr => { ing0 with addresses := collectAddresses ingressArr }
        | none => ing0
      | none => ing0
  match nestedMap item "spec" with
  | none => ing1
  | some spec =>
    match asArr (jGet spec "rules") with
    | some rules => { ing1 with hosts := collectHosts rules }
    | none => ing1

/-- `extractResourceStatus` from list.go: the generic fallback summary with
the whole status subtree, set only when present as a map. -/
def extractResourceStatus (obj : RawItem) : ResourceWithStatus :=
  let resource : ResourceWithStatus :=
    { name := obj.getName, namespace_ := obj.getNamespace,
      kind := obj.getKind, status := none }
  match nestedMap obj "status" with
  | some status => { resource with status := some status }
  | none => resource

/-- The kind dispatch of `listResourcesWithStatus` (the `switch kind`
statement over the lowercased catalog kind), threaded with the raw item so
that what the projection leaves of its input is explicit: every branch only
reads `item` (via the nested accessors, which copy), so every branch
returns it as received. -/
def projectItemS (kind : String) (item : RawItem) : Summary × RawItem :=
  if kind == "pod" then (Summary.pod (projectPod item), item)
  else if kind == "deployment" then (Summary.deployment (projectDeployment item), item)
  else if kind == "service" then (Summary.service (projectService item), item)
  else if kind == "ingress" then (Summary.ingress (projectIngress item), item)
  else (Summary.generic (extractResourceStatus item), item)

/-- The summary produced for one item by the kind dispatch of
`listResourcesWithStatus`. -/
def projectItem (kind : String) (item : RawItem) : Summary :=
  (projectItemS kind item).1

/-- `metav1.NamespaceAll`: the empty string denotes the all-namespaces
scope in the Kubernetes API. -/
def NamespaceAll : String := ""

/-- `metav1.ListOptions`, restricted to the fields list.go sets: the Go
`Limit` is an `int64` whose zero value means "no limit" to the API server
(and is omitted from the serialized request), and `TimeoutSeconds` is a
`*int64` pointer. -/
structure ListOptions where
  labelSelector : String
  fieldSelector : String
  limit : Int
  timeoutSeconds : Option Int
deriving Repr, DecidableEq

/-- `buildListOptions` from list.go: selectors copied through; `Limit` set
only when the parsed limit is positive; `TimeoutSeconds` set to the parsed
value when positive, else to the default of 30. -/
def buildListOptions (input : ListResourcesInput) : ListOptions :=
  let listOptions : ListOptions :=
    { labelSelector := input.labelSelector, fieldSelector := input.fieldSelector,
      limit := 0, timeoutSeconds := none }
  let listOptions :=
    if input.limit > 0 then { listOptions with limit := input.limit } else listOptions
  if input.timeoutSeconds > 0 then
    { listOptions with timeoutSeconds := some input.timeoutSeconds }
  else
    { listOptions with timeoutSeconds := some 30 }

/-- The request argument mapping `map[string]any` handed to the handler. -/
abbrev Args := JObj

/-- The Go two-valued type assertion `args[k].(string)`. -/
def getStrArg (args : Args) (k : String) : Option String := asString (jGet args k)

/-- The Go two-valued type assertion `args[k].(float64)`. -/
def getNumArg (args : Args) (k : String) : Option Int := asNum (jGet args k)

/-- The Go two-valued type assertion `args[k].(bool)`. -/
def getBoolArg (args : Args) (k : String) : Option Bool := asBool (jGet args k)

/-- The three validators from the `validation` package that
`parseAndValidateListParams` consults.  Their sources are outside this
repository snapshot, so they are left abstract: each returns an error
message or `none` for acceptance, and every theorem below holds for every
choice of them. -/
structure Validators where
  validateKind : String → Option String
  validateNamespace : String → Option String
  validateLabelSelector : String → Option String

/-- The `groupFilter` block of `parseAndValidateListParams`. -/
def parseGroupFilter (args : Args) (input : ListResourcesInput) : ListResourcesInput :=
  match getStrArg args "groupFilter" with
  | some groupFilter => { input with groupFilter := groupFilter }
  | none => input

/-- The `kind` block of `parseAndValidateListParams`: a non-empty string
argument is stored and validated; otherwise, when no group filter was
given, parsing fails with the "kind must be provided" error. -/
def parseKind (v : Validators) (args : Args) (input : ListResourcesInput) :
    Except String ListResourcesInput :=
  match getStrArg args "kind" with
  | some kindVal =>
    if kindVal != "" then
      let input := { input with kind := kindVal }
      match v.validateKind input.kind with
      | some e => Except.error ("invalid kind: " ++ e)
      | none => Except.ok input
    else if input.groupFilter == "" then
      Except.error "kind must be provided when groupFilter is not specified"
    else
      Except.ok input
  | none =>
    if input.groupFilter == "" then
      Except.error "kind must be provided when groupFilter is not specified"
    else
      Except.ok input

/-- The `namespace` block of `parseAndValidateListParams`: a supplied
string is stored and validated, then an empty namespace is replaced by
`metav1.NamespaceAll`. -/
def parseNamespaceArg (v : Validators) (args : Args) (input : ListResourcesInput) :
    Except String ListResourcesInput :=
  let step : Except String ListResourcesInput :=
    match getStrArg args "namespace" with
    | some ns =>
      let input := { input with namespace_ := ns }
      match v.validateNamespace input.namespace_ with
      | some e => Except.error ("invalid namespace: " ++ e)
      | none => Except.ok input
    | none => Except.ok input
  match step with
  | Except.error e => Except.error e
  | Except.ok input =>
    if input.namespace_ == "" then Except.ok { input with namespace_ := NamespaceAll }
    else Except.ok input

/-- The `labelSelector` block of `parseAndValidateListParams`. -/
def parseLabelSelector (v : Validators) (args : Args) (input : ListResourcesInput) :
    Except String ListResourcesInput :=
  match getStrArg args "labelSelector" with
  | some ls =>
    let input := { input with labelSelector := ls }
    match v.validateLabelSelector input.labelSelector with
    | some e => Except.error ("invalid labelSelector: " ++ e)
    | none => Except.ok input
  | none => Except.ok input

/-- The `fieldSelector` block of `parseAndValidateListParams`. -/
def parseFieldSelector (args : Args) (input : ListResourcesInput) : ListResourcesInput :=
  match getStrArg args "fieldSelector" with
  | some fs => { input with fieldSelector := fs }
  | none => input

/-- The `limit` block of `parseAndValidateListParams`: stored only when the
supplied number is strictly positive. -/
def parseLimit (args : Args) (input : ListResourcesInput) : ListResourcesInput :=
  match getNumArg args "limit" with
  | some limit => if limit > 0 then { input with limit := limit } else input
  | none => input

/-- The `timeoutSeconds` block of `parseAndValidateListParams`: stored only
when the supplied number is strictly positive. -/
def parseTimeout (args : Args) (input : ListResourcesInput) : ListResourcesInput :=
  match getNumArg args "timeoutSeconds" with
  | some t => if t > 0 then { input with timeoutSeconds := t } else input
  | none => input

/-- The `showDetails` block of `parseAndValidateListParams`. -/
def parseShowDetails (args : Args) (input : ListResourcesInput) : ListResourcesInput :=
  match getBoolArg args "showDetails" with
  | some b => { input with showDetails := b }
  | none => input

/-- The zero value `&ListResourcesInput{}` that `parseAndValidateListParams`
starts from. -/
def initialInput : ListResourcesInput :=
  { kind := "", groupFilter := "", namespace_ := "", labelSelector := "",
    fieldSelector := "", limit := 0, timeoutSeconds := 0, showDetails := false }

/-- `parseAndValidateListParams` from list.go: the blocks above in source
order, starting from the zero-valued input. -/
def parseAndValidateListParams (v : Validators) (args : Args) :
    Except String ListResourcesInput :=
  let input1 := parseGroupFilter args initialInput
  match parseKind v args input1 with
  | Except.error e => Except.error e
  | Except.ok input2 =>
    match parseNamespaceArg v args input2 with
    | Except.error e => Except.error e
    | Except.ok input3 =>
      match parseLabelSelector v args input3 with
      | Except.error e => Except.error e
      | Except.ok input4 =>
        let input5 := parseFieldSelector args input4
        let input6 := parseLimit args input5
        let input7 := parseTimeout args input6
        Except.ok (parseShowDetails args input7)

/-- One entry of the `discoveredTypes` slice built by
`handleGroupDiscovery`: the matched descriptor's kind, group/version,
plural resource name, namespaced flag, and short names. -/
structure DiscoveredType where
  kind : String
  group : String
  resource : String
  namespaced : Bool
  shortNames : List String
deriving Repr, DecidableEq

/-- The two shapes `handleGroupDiscovery` can serialize: the early-return
no-resources message payload (Go also attaches an empty
`availableResources` array to it), or the full discovery payload with
`groupFilter`, `discoveredTypes`, `totalFound` and `message`. -/
inductive DiscoveryResult where
  | noResources (message : String)
  | found (groupFilter : String) (discoveredTypes : List DiscoveredType)
      (totalFound : Nat) (message : String)
deriving Repr, DecidableEq

/-- The per-match map literal in `handleGroupDiscovery`. -/
def describeMatch (m : gvrMatch) : DiscoveredType :=
  { kind := m.kindOf, group := m.groupVersion, resource := m.nameOf,
    namespaced := m.namespaced, shortNames := m.shortNamesOf }

/-- `handleGroupDiscovery` from list.go, after a successful catalog fetch:
match the fragment, return the no-resources payload when nothing matched,
else the discovery payload.  No list query appears in this function. -/
def handleGroupDiscovery (catalog : Catalog) (groupFilter : String) : DiscoveryResult :=
  let matchList := findGVRsByGroupSubstring catalog groupFilter
  if matchList.length == 0 then
    DiscoveryResult.noResources ("No resources found for group filter " ++ sq groupFilter)
  else
    DiscoveryResult.found groupFilter (matchList.map describeMatch) matchList.length
      ("Found " ++ toString matchList.length ++ " resource types matching group filter "
        ++ sq groupFilter)

/-- The list transport: `ResourceInterface(gvr, namespaced, namespace)`
followed by `ri.List(ctx, listOptions)`, abstracted as one function from
the query's coordinate, namespacing, namespace scope and options to items
or a failure.  Theorems quantify over every oracle. -/
def ListOracle : Type :=
  GroupVersionResource → Bool → String → ListOptions → Except String (List RawItem)

/-- `listResourceDetails` from list.go: dereference the coordinate pointer
and run the list, returning the raw items.  The Go code dereferences
`*gvrMatch.ToGroupVersionResource()` unconditionally; the nil case (a
runtime panic in Go) is modelled as an error and shown unreachable from the
handler paths. -/
def listResourceDetails (oracle : ListOracle) (m : gvrMatch) (input : ListResourcesInput) :
    Except String (List RawItem) :=
  match m.ToGroupVersionResource with
  | none => Except.error "nil GroupVersionResource dereferenced"
  | some gvr => oracle gvr m.namespaced input.namespace_ (buildListOptions input)

/-- `listResourcesWithStatus` from list.go: run the list, then project
every item through the kind dispatch keyed by the lowercased catalog
kind. -/
def listResourcesWithStatus (oracle : ListOracle) (m : gvrMatch) (input : ListResourcesInput) :
    Except String (List Summary) :=
  match m.ToGroupVersionResource with
  | none => Except.error "nil GroupVersionResource dereferenced"
  | some gvr =>
    match oracle gvr m.namespaced input.namespace_ (buildListOptions input) with
    | Except.error e => Except.error e
    | Except.ok items => Except.ok (items.map (projectItem (strToLower m.kindOf)))

/-- The kind/plural/short-name equality test of `handleGroupFilteredList`
over one group match (kind checked before plural name, then the short-name
loop). -/
def matchesKindToken (kindLower : String) (m : gvrMatch) : Bool :=
  strToLower m.kindOf == kindLower || strToLower m.nameOf == kindLower ||
    (m.shortNamesOf.find? (fun sn => strToLower sn == kindLower)).isSome

/-- The three result shapes of the handler: a discovery payload, projected
summaries, or raw detailed items. -/
inductive HandlerOutput where
  | discovery (d : DiscoveryResult)
  | listed (xs : List Summary)
  | detailed (items : List RawItem)
deriving Repr

/-- `handleGroupFilteredList` from list.go, after a successful catalog
fetch: narrow the group matches by the kind token (first qualifying match
wins), fail with the kind-not-found-in-group error when none qualifies,
else list with or without projection. -/
def handleGroupFilteredList (catalog : Catalog) (oracle : ListOracle)
    (input : ListResourcesInput) : Except String HandlerOutput :=
  let matchList := findGVRsByGroupSubstring catalog input.groupFilter
  let kindLower := strToLower input.kind
  match matchList.find? (matchesKindToken kindLower) with
  | none =>
    Except.error ("kind " ++ sq input.kind ++ " not found in group filter "
      ++ sq input.groupFilter)
  | some m =>
    if input.showDetails then (listResourceDetails oracle m input).map HandlerOutput.detailed
    else (listResourcesWithStatus oracle m input).map HandlerOutput.listed

/-- The direct-resolution tail of `ListTool.Handler` (the path taken when
no group filter is given): `discoverResourceByKind` then the listing, with
or without projection. -/
def handleDirectKind (catalog : Catalog) (oracle : ListOracle)
    (input : ListResourcesInput) : Except String HandlerOutput :=
  match findGVRByKind catalog input.kind with
  | Except.error e => Except.error e
  | Except.ok m =>
    if input.showDetails then (listResourceDetails oracle m input).map HandlerOutput.detailed
    else (listResourcesWithStatus oracle m input).map HandlerOutput.listed

/-- The mode dispatch of `ListTool.Handler` after parsing: a non-empty
group filter selects discovery (kind `"all"` or empty) or the filtered
list; otherwise the direct path runs. -/
def handlerAfterParse (catalog : Catalog) (oracle : ListOracle)
    (input : ListResourcesInput) : Except String HandlerOutput :=
  if input.groupFilter != "" then
    if input.kind == "all" || input.kind == "" then
      Except.ok (HandlerOutput.discovery (handleGroupDiscovery catalog input.groupFilter))
    else
      handleGroupFilteredList catalog oracle input
  else
    handleDirectKind catalog oracle input

/-- The three handler modes. -/
inductive Mode where
  | discovery
  | groupFiltered
  | direct
deriving Repr, DecidableEq

/-- The branch structure of `ListTool.Handler` distilled to the selected
mode. -/
def selectMode (input : ListResourcesInput) : Mode :=
  if input.groupFilter != "" then
    if input.kind == "all" || input.kind == "" then Mode.discovery
    else Mode.groupFiltered
  else Mode.direct

/-- `ListTool.Handler` end to end: parse, then (inside whichever mode runs)
fetch the catalog and continue.  The catalog fetch is a value of
`Except String Catalog` since the handler performs it exactly once, after
parsing, in every mode. -/
def handlerModel (v : Validators) (fetch : Except String Catalog) (oracle : ListOracle)
    (args : Args) : Except String HandlerOutput :=
  match parseAndValidateListParams v args with
  | Except.error e => Except.error e
  | Except.ok input =>
    match fetch with
    | Except.error e => Except.error e
    | Except.ok catalog => handlerAfterParse catalog oracle input

/-!
Specification-side descriptions, used to state the claims: a flattened view
of the catalog and the matching predicates in the form the spec phrases
them, to be related to the scanning functions above.
-/

/-- Every descriptor of the catalog paired with its group/version string,
in server-returned order; nil list entries hold no descriptors. -/
def catalogDescriptors : Catalog → List (String × APIResource)
  | [] => []
  | none :: rest => catalogDescriptors rest
  | some l :: rest =>
    l.apiResources.map (fun r => (l.groupVersion, r)) ++ catalogDescriptors rest

/-- The Kind Resolver's match predicate as the spec states it: the
lowercased token equals the lowercased plural name, the lowercased kind
name, or some lowercased short alias. -/
def resourceMatches (target : String) (r : APIResource) : Bool :=
  (strToLower r.name == target || strToLower r.kind == target) ||
    r.shortNames.any (fun sn => strToLower sn == target)

/-- The Group Substring Matcher as the spec states it: every descriptor
whose group/version string contains the lowercased fragment, in catalog
order, with no deduplication. -/
def groupMatchesSpec (catalog : Catalog) (fragment : String) : List gvrMatch :=
  (catalogDescriptors catalog).filterMap (fun p =>
    if strContains p.1 (strToLower fragment) then
      some (newGvrMatch p.2 p.1 p.2.namespaced)
    else none)

/-- The discovery listing as the spec states it: for each matching
descriptor, its own kind, group/version, plural name, namespaced flag and
short aliases. -/
def discoveredTypesSpec (catalog : Catalog) (fragment : String) : List DiscoveredType :=
  (catalogDescriptors catalog).filterMap (fun p =>
    if strContains p.1 (strToLower fragment) then
      some { kind := p.2.kind, group := p.1, resource := p.2.name,
             namespaced := p.2.namespaced, shortNames := p.2.shortNames }
    else none)

/-- The inner loop of `findGVRByKind` returns the first resource of the
list satisfying the spec's match predicate. -/
theorem findInResources_eq_find (target gv : String) (rs : List APIResource) :
    findInResources target gv rs =
      (rs.find? (resourceMatches target)).map (fun r => newGvrMatch r gv r.namespaced) := by
  induction rs with
  | nil => rfl
  | cons r rest ih =>
    by_cases c1 : (strToLower r.name == target || strToLower r.kind == target) = true
    · have hm : resourceMatches target r = true := by
        rw [resourceMatches, c1, Bool.true_or]
      rw [List.find?_cons_of_pos _ hm]
      simp only [findInResources, c1, if_true]
      rfl
    · have c1f : (strToLower r.name == target || strToLower r.kind == target) = false :=
        Bool.not_eq_true _ ▸ Bool.of_not_eq_true c1
      cases hS : r.shortNames.find? (fun sn => strToLower sn == target) with
      | some s =>
        have hmem := List.mem_of_find?_eq_some hS
        have hp := List.find?_some hS
        have hany : r.shortNames.any (fun sn => strToLower sn == target) = true :=
          List.any_eq_true.mpr ⟨s, hmem, hp⟩
        have hm : resourceMatches target r = true := by
          rw [resourceMatches, c1f, hany, Bool.false_or]
        rw [List.find?_cons_of_pos _ hm]
        simp only [findInResources, c1f, Bool.false_eq_true, if_false, hS]
        rfl
      | none =>
        have hany : r.shortNames.any (fun sn => strToLower sn == target) = false := by
          rw [Bool.eq_false_iff]
          intro hcontra
          obtain ⟨x, hxmem, hxp⟩ := List.any_eq_true.mp hcontra
          exact absurd hxp (by simpa using List.find?_eq_none.mp hS x hxmem)
        have hm : resourceMatches target r = false := by
          rw [resourceMatches, c1f, hany, Bool.false_or]
        rw [List.find?_cons_of_neg _ (by simp [hm])]
        simp only [findInResources, c1f, Bool.false_eq_true, if_false, hS]
        exact ih

/-- The outer loop of `findGVRByKind` returns the first descriptor of the
flattened catalog satisfying the spec's match predicate, converted by
`newGvrMatch`. -/
theorem findGVRByKindAux_eq_find (target : String) (catalog : Catalog) :
    findGVRByKindAux target catalog =
      ((catalogDescriptors catalog).find? (fun p => resourceMatches target p.2)).map
        (fun p => newGvrMatch p.2 p.1 p.2.namespaced) := by
  induction catalog with
  | nil => rfl
  | cons entry rest ih =>
    cases entry with
    | none =>
      simpa only [findGVRByKindAux, catalogDescriptors] using ih
    | some l =>
      rw [show findGVRByKindAux target (some l :: rest) =
            (match findInResources target l.groupVersion l.apiResources with
             | some m => some m
             | none => findGVRByKindAux target rest) from rfl]
      rw [findInResources_eq_find]
      show _ = ((l.apiResources.map (fun r => (l.groupVersion, r)) ++ catalogDescriptors rest).find?
        (fun p => resourceMatches target p.2)).map (fun p => newGvrMatch p.2 p.1 p.2.namespaced)
      rw [List.find?_append, List.find?_map]
      cases h : l.apiResources.find?
          ((fun p => resourceMatches target p.2) ∘ (fun r => (l.groupVersion, r))) with
      | some r =>
        have h2 : l.apiResources.find? (resourceMatches target) = some r := h
        rw [h2]
        rfl
      | none =>
        have h2 : l.apiResources.find? (resourceMatches target) = none := h
        rw [h2]
        exact ih

/-- The group matcher computes exactly the spec-side match list. -/
theorem findGVRs_eq_spec (catalog : Catalog) (fragment : String) :
    findGVRsByGroupSubstring catalog fragment = groupMatchesSpec catalog fragment := by
  rw [findGVRsByGroupSubstring, groupMatchesSpec]
  induction catalog with
  | nil => rfl
  | cons entry rest ih =>
    cases entry with
    | none => simpa only [findGVRsByGroupSubstringAux, catalogDescriptors] using ih
    | some l =>
      show (if strContains l.groupVersion (strToLower fragment) then
              l.apiResources.map (fun r => newGvrMatch r l.groupVersion r.namespaced)
                ++ findGVRsByGroupSubstringAux (strToLower fragment) rest
            else findGVRsByGroupSubstringAux (strToLower fragment) rest) =
        (l.apiResources.map (fun r => (l.groupVersion, r)) ++ catalogDescriptors rest).filterMap _
      rw [List.filterMap_append, List.filterMap_map]
      by_cases hc : strContains l.groupVersion (strToLower fragment) = true
      · rw [if_pos hc]
        rw [show (l.apiResources.filterMap ((fun p =>
              if strContains p.1 (strToLower fragment) then
                some (newGvrMatch p.2 p.1 p.2.namespaced)
              else none) ∘ (fun r => (l.groupVersion, r)))) =
            l.apiResources.map (fun r => newGvrMatch r l.groupVersion r.namespaced) from by
          rw [List.filterMap_eq_map_iff_forall_eq_some.mpr]
          intro r _
          simp only [Function.comp_apply, hc, if_true]]
        rw [ih]
      · rw [if_neg hc]
        rw [show (l.apiResources.filterMap ((fun p =>
              if strContains p.1 (strToLower fragment) then
                some (newGvrMatch p.2 p.1 p.2.namespaced)
              else none) ∘ (fun r => (l.groupVersion, r)))) = [] from by
          rw [List.filterMap_eq_nil_iff]
          intro r _
          simp only [Function.comp_apply, hc, if_false]
          simp]
        rw [List.nil_append, ih]

/-- The empty string is contained in every character list. -/
theorem charsContains_nil (l : List Char) : charsContains l [] = true := by
  cases l <;> rfl

/-- Go `strings.Contains s ""` is true for every `s`. -/
theorem strContains_empty (s : String) : strContains s "" = true :=
  charsContains_nil s.data

/-- A match built from a descriptor with a non-empty group/version string
always converts to a valid coordinate. -/
theorem toGVR_isSome_of_ne (r : APIResource) (gv : String) (ns : Bool) (h : gv ≠ "") :
    ∃ gvr, (newGvrMatch r gv ns).ToGroupVersionResource = some gvr := by
  simp only [gvrMatch.ToGroupVersionResource, newGvrMatch,
    if_neg (show ¬(gv == "") = true by simpa using h)]
  split
  · exact ⟨_, rfl⟩
  · exact ⟨_, rfl⟩

/-- The `Pod` descriptor used in the concrete examples below. -/
def podsRes : APIResource :=
  { name := "pods", kind := "Pod", shortNames := ["po"], namespaced := true }

/-- The `Deployment` descriptor used in the concrete examples below. -/
def deploysRes : APIResource :=
  { name := "deployments", kind := "Deployment", shortNames := ["deploy"], namespaced := true }

/-- A second `Pod` descriptor in another group, to exercise first-match
shadowing. -/
def podsMetricsRes : APIResource :=
  { name := "pods", kind := "Pod", shortNames := [], namespaced := false }

/-- A catalog whose only list carries an empty group/version string. -/
def catEmptyGV : Catalog := [some { groupVersion := "", apiResources := [podsRes] }]

/-- A two-group catalog (with a nil entry) in which `pods` occurs twice. -/
def catTwoGroups : Catalog :=
  [none,
   some { groupVersion := "v1", apiResources := [deploysRes, podsRes] },
   some { groupVersion := "metrics.k8s.io/v1beta1", apiResources := [podsMetricsRes] }]

/-- **C1, counterexample.**  The claim says a token matching some
descriptor never yields a resolution failure; but when the first matching
descriptor sits in a list whose group/version string is empty,
`findGVRByKind` reports the cannot-find error even though the token
matches the descriptor case-insensitively. -/
theorem c1_counterexample :
    resourceMatches (strToLower "pod") podsRes = true ∧
    findGVRByKind catEmptyGV "pod" = Except.error ("cannot find resource " ++ sq "pod") := by
  exact ⟨by decide, rfl⟩

/-- **C1** (amended).  For every catalog and token, when the first
descriptor in catalog order whose plural name, kind, or some short alias
equals the token case-insensitively lies in a list with a non-empty
group/version string, `findGVRByKind` returns exactly that first
descriptor's match (scanning stops there) and does not report the
cannot-find error. -/
theorem c1_kind_resolution_first_match (catalog : Catalog) (token gv : String)
    (r : APIResource)
    (hfirst : (catalogDescriptors catalog).find?
        (fun p => resourceMatches (strToLower token) p.2) = some (gv, r))
    (hgv : gv ≠ "") :
    findGVRByKind catalog token = Except.ok (newGvrMatch r gv r.namespaced) := by
  rw [findGVRByKind]
  show (match findGVRByKindAux (strToLower token) catalog with
    | none => Except.error ("cannot find resource " ++ sq token)
    | some found =>
      match found.ToGroupVersionResource with
      | none => Except.error ("cannot find resource " ++ sq token)
      | some _ => Except.ok found) = _
  rw [findGVRByKindAux_eq_find, hfirst]
  obtain ⟨gvr, hgvr⟩ := toGVR_isSome_of_ne r gv r.namespaced hgv
  show (match (newGvrMatch r gv r.namespaced).ToGroupVersionResource with
    | none => Except.error ("cannot find resource " ++ sq token)
    | some _ => Except.ok (newGvrMatch r gv r.namespaced)) = _
  rw [hgvr]

/-- **C1, witness.**  In the two-group catalog, the token `"PO"` (a short
alias, uppercased) resolves to the `v1` `pods` descriptor — the first
match in catalog order — even though a later group also defines `pods`. -/
theorem c1_witness :
    findGVRByKind catTwoGroups "PO" =
      Except.ok (newGvrMatch podsRes "v1" podsRes.namespaced) :=
  c1_kind_resolution_first_match catTwoGroups "PO" "v1" podsRes (by decide) (by decide)

/-- The `Kustomization` descriptor with an upper-case group string, for the
case-sensitivity counterexample. -/
def kustRes : APIResource :=
  { name := "kustomizations", kind := "Kustomization", shortNames := ["ks"], namespaced := true }

/-- A catalog whose group/version string contains upper-case letters. -/
def catUpperGV : Catalog := [some { groupVersion := "FLUX/v1", apiResources := [kustRes] }]

/-- **C3, counterexample.**  The claim says the matcher compares
case-insensitively; but only the fragment is lowercased, so a catalog
group/version string written in upper case is never matched even by a
fragment that contains it case-insensitively. -/
theorem c3_counterexample :
    strContains (strToLower "FLUX/v1") (strToLower "flux") = true ∧
    findGVRsByGroupSubstring catUpperGV "flux" = [] := by
  exact ⟨by decide, by decide⟩

/-- **C3** (amended).  For every catalog and fragment, the group matcher
returns exactly those descriptors whose group/version string contains the
lowercased fragment as a (case-sensitive) substring, in catalog order,
without deduplication and totally (no failure on an empty result); the
empty fragment returns every descriptor; and two fragments with equal
lowercasings (in particular an upper-case fragment and its lower-case
form) yield identical result lists. -/
theorem c3_group_matcher (catalog : Catalog) (fragment : String) :
    findGVRsByGroupSubstring catalog fragment = groupMatchesSpec catalog fragment ∧
    findGVRsByGroupSubstring catalog "" =
      (catalogDescriptors catalog).map (fun p => newGvrMatch p.2 p.1 p.2.namespaced) ∧
    (∀ fragment2, strToLower fragment = strToLower fragment2 →
      findGVRsByGroupSubstring catalog fragment = findGVRsByGroupSubstring catalog fragment2) := by
  refine ⟨findGVRs_eq_spec catalog fragment, ?_, ?_⟩
  · rw [findGVRs_eq_spec, groupMatchesSpec]
    rw [List.filterMap_eq_map_iff_forall_eq_some.mpr]
    intro p _
    rw [show strToLower "" = "" from by decide, if_pos (strContains_empty p.1)]
  · intro f2 h
    rw [findGVRsByGroupSubstring, findGVRsByGroupSubstring, h]

/-- **C3, witness.**  On the two-group catalog: `"V1"` and `"v1"` give the
same matches, and the empty fragment returns all three descriptors. -/
theorem c3_witness :
    findGVRsByGroupSubstring catTwoGroups "V1" = findGVRsByGroupSubstring catTwoGroups "v1" ∧
    findGVRsByGroupSubstring catTwoGroups "" =
      (catalogDescriptors catTwoGroups).map (fun p => newGvrMatch p.2 p.1 p.2.namespaced) :=
  ⟨(c3_group_matcher catTwoGroups "V1").2.2 "v1" (by decide),
   (c3_group_matcher catTwoGroups "anything").2.1⟩

/-- The all-empty oracle used by concrete examples: every list query
returns an empty item set. -/
def oracleEmpty : ListOracle := fun _ _ _ _ => Except.ok []

/-- An oracle that fails every list query, used to show paths that issue no
query are oracle-independent. -/
def oracleFail : ListOracle := fun _ _ _ _ => Except.error "list transport failure"

/-- A direct-mode input asking for `pods` with no group filter. -/
def inputDirectPods : ListResourcesInput :=
  { kind := "pods", groupFilter := "", namespace_ := "", labelSelector := "",
    fieldSelector := "", limit := 0, timeoutSeconds := 0, showDetails := false }

/-- **C4.**  For every catalog and token: (a) when no descriptor matches
the token, or the first matching descriptor produces an invalid coordinate
(its conversion to a `GroupVersionResource` is nil, i.e. the group/version
string is empty), resolution fails with the cannot-find error naming the
token; (b) whenever resolution succeeds, the returned match converts to a
valid coordinate — so the listing paths, which query only through that
conversion, never issue a query with a malformed coordinate; (c) the
handler's direct mode propagates the resolution error without consulting
the list transport. -/
theorem c4_invalid_resolution (catalog : Catalog) (kind : String) :
    (((catalogDescriptors catalog).find?
        (fun p => resourceMatches (strToLower kind) p.2) = none ∨
      (∃ gv r, (catalogDescriptors catalog).find?
          (fun p => resourceMatches (strToLower kind) p.2) = some (gv, r) ∧
        (newGvrMatch r gv r.namespaced).ToGroupVersionResource = none)) →
      findGVRByKind catalog kind = Except.error ("cannot find resource " ++ sq kind)) ∧
    (∀ m, findGVRByKind catalog kind = Except.ok m →
      ∃ gvr, m.ToGroupVersionResource = some gvr) ∧
    (∀ input oracle e, input.groupFilter = "" → input.kind = kind →
      findGVRByKind catalog kind = Except.error e →
      handlerAfterParse catalog oracle input = Except.error e) := by
  refine ⟨?_, ?_, ?_⟩
  · intro h
    rw [findGVRByKind]
    show (match findGVRByKindAux (strToLower kind) catalog with
      | none => Except.error ("cannot find resource " ++ sq kind)
      | some found =>
        match found.ToGroupVersionResource with
        | none => Except.error ("cannot find resource " ++ sq kind)
        | some _ => Except.ok found) = _
    rw [findGVRByKindAux_eq_find]
    cases h with
    | inl hnone => rw [hnone]; rfl
    | inr hsome =>
      obtain ⟨gv, r, hf, hinv⟩ := hsome
      rw [hf]
      show (match (newGvrMatch r gv r.namespaced).ToGroupVersionResource with
        | none => Except.error ("cannot find resource " ++ sq kind)
        | some _ => Except.ok (newGvrMatch r gv r.namespaced)) = _
      rw [hinv]
  · intro m hm
    rw [findGVRByKind] at hm
    cases haux : findGVRByKindAux (strToLower kind) catalog with
    | none => rw [haux] at hm; cases hm
    | some found =>
      rw [haux] at hm
      have hm2 : (match found.ToGroupVersionResource with
        | none => Except.error ("cannot find resource " ++ sq kind)
        | some _ => Except.ok found) = Except.ok m := hm
      cases hg : found.ToGroupVersionResource with
      | none => rw [hg] at hm2; cases hm2
      | some gvr =>
        rw [hg] at hm2
        injection hm2 with hfm
        exact ⟨gvr, hfm ▸ hg⟩
  · intro input oracle e h1 h2 h3
    rw [handlerAfterParse, if_neg (by simp [h1])]
    rw [handleDirectKind, h2, h3]

/-- **C4, witness.**  On the empty-group/version catalog, `"pods"` matches
a descriptor but the coordinate is invalid, so resolution fails with the
token-naming error, and the handler's direct mode returns that same error
with a transport that would fail any query. -/
theorem c4_witness :
    findGVRByKind catEmptyGV "pods" = Except.error ("cannot find resource " ++ sq "pods") ∧
    handlerAfterParse catEmptyGV oracleFail inputDirectPods =
      Except.error ("cannot find resource " ++ sq "pods") := by
  have h := c4_invalid_resolution catEmptyGV "pods"
  have herr : findGVRByKind catEmptyGV "pods" =
      Except.error ("cannot find resource " ++ sq "pods") :=
    h.1 (Or.inr ⟨"", podsRes, by decide, by decide⟩)
  exact ⟨herr, h.2.2 inputDirectPods oracleFail _ rfl rfl herr⟩

/-- Describing the spec-side group matches yields the spec-side discovery
listing: each entry carries its own descriptor's fields. -/
theorem map_describe_groupMatches (catalog : Catalog) (fragment : String) :
    (groupMatchesSpec catalog fragment).map describeMatch =
      discoveredTypesSpec catalog fragment := by
  rw [groupMatchesSpec, discoveredTypesSpec, List.map_filterMap]
  congr 1
  funext p
  by_cases hc : strContains p.1 (strToLower fragment) = true
  · rw [if_pos hc, if_pos hc]
    rfl
  · rw [if_neg hc, if_neg hc]
    rfl

/-- The discovery listing has one entry per spec-side match. -/
theorem length_discoveredTypesSpec (catalog : Catalog) (fragment : String) :
    (groupMatchesSpec catalog fragment).length =
      (discoveredTypesSpec catalog fragment).length := by
  rw [← map_describe_groupMatches, List.length_map]

/-- **C5** (amended).  For every catalog and fragment: when at least one
descriptor matches, the discovery payload is
`{groupFilter, discoveredTypes, totalFound, message}` where
`discoveredTypes` lists each matching descriptor's own kind, group/version,
plural name, namespaced flag and short aliases, and `totalFound` is the
number of matches; when no descriptor matches, the handler instead returns
the early no-resources message payload; and in discovery mode no list query
is executed (the handler's result does not depend on the list
transport). -/
theorem c5_discovery_payload (catalog : Catalog) (fragment : String) :
    (findGVRsByGroupSubstring catalog fragment ≠ [] →
      handleGroupDiscovery catalog fragment =
        DiscoveryResult.found fragment (discoveredTypesSpec catalog fragment)
          (discoveredTypesSpec catalog fragment).length
          ("Found " ++ toString (discoveredTypesSpec catalog fragment).length
            ++ " resource types matching group filter " ++ sq fragment)) ∧
    (findGVRsByGroupSubstring catalog fragment = [] →
      handleGroupDiscovery catalog fragment =
        DiscoveryResult.noResources ("No resources found for group filter " ++ sq fragment)) ∧
    (∀ input oracle1 oracle2, input.groupFilter ≠ "" →
      (input.kind = "all" ∨ input.kind = "") →
      handlerAfterParse catalog oracle1 input = handlerAfterParse catalog oracle2 input) := by
  refine ⟨?_, ?_, ?_⟩
  · intro h
    have hne : ((findGVRsByGroupSubstring catalog fragment).length == 0) = false := by
      simpa [List.length_eq_zero] using h
    simp only [handleGroupDiscovery, hne, Bool.false_eq_true, if_false]
    rw [findGVRs_eq_spec, map_describe_groupMatches, length_discoveredTypesSpec]
  · intro h
    simp only [handleGroupDiscovery, h]
    rfl
  · intro input oracle1 oracle2 h1 h2
    have hb1 : (input.groupFilter != "") = true := by simpa using h1
    have hb2 : (input.kind == "all" || input.kind == "") = true := by
      rcases h2 with h | h <;> simp [h]
    simp only [handlerAfterParse, hb1, hb2, if_true]

/-- A discovery-mode input: `kind = "all"` with a group filter. -/
def inputDiscovery : ListResourcesInput :=
  { kind := "all", groupFilter := "v1", namespace_ := "", labelSelector := "",
    fieldSelector := "", limit := 0, timeoutSeconds := 0, showDetails := false }

/-- **C5, counterexample.**  The claim says the
`{groupFilter, discoveredTypes, totalFound, message}` payload is produced
also when the match set is empty; but on an empty match set the code
returns the early no-resources message payload instead. -/
theorem c5_counterexample :
    findGVRsByGroupSubstring catTwoGroups "zzz" = [] ∧
    handleGroupDiscovery catTwoGroups "zzz" =
      DiscoveryResult.noResources ("No resources found for group filter " ++ sq "zzz") :=
  ⟨by decide, rfl⟩

/-- **C5, witness.**  On the two-group catalog with fragment `"v1"` the
discovery payload is produced, and the discovery-mode handler result is the
same under a transport that succeeds and one that fails every query. -/
theorem c5_witness :
    handleGroupDiscovery catTwoGroups "v1" =
      DiscoveryResult.found "v1" (discoveredTypesSpec catTwoGroups "v1")
        (discoveredTypesSpec catTwoGroups "v1").length
        ("Found " ++ toString (discoveredTypesSpec catTwoGroups "v1").length
          ++ " resource types matching group filter " ++ sq "v1") ∧
    handlerAfterParse catTwoGroups oracleEmpty inputDiscovery =
      handlerAfterParse catTwoGroups oracleFail inputDiscovery := by
  have h := c5_discovery_payload catTwoGroups "v1"
  exact ⟨h.1 (by decide),
    h.2.2 inputDiscovery oracleEmpty oracleFail (by decide) (Or.inl rfl)⟩

/-- **C6.**  For every parsed input the handler selects exactly one of the
three modes — discovery when the group filter is non-empty and the kind is
`"all"` or empty; filtered-kind mode when the group filter is non-empty and
the kind is any other non-empty token; direct kind resolution when the
group filter is empty — the three characterizations are mutually exclusive
and exhaustive (the mode is a three-valued dispatch), and the handler's
behaviour agrees with the selected mode. -/
theorem c6_mode_selection (input : ListResourcesInput) :
    (selectMode input = Mode.discovery ↔
      input.groupFilter ≠ "" ∧ (input.kind = "all" ∨ input.kind = "")) ∧
    (selectMode input = Mode.groupFiltered ↔
      input.groupFilter ≠ "" ∧ input.kind ≠ "all" ∧ input.kind ≠ "") ∧
    (selectMode input = Mode.direct ↔ input.groupFilter = "") ∧
    (∀ catalog oracle, handlerAfterParse catalog oracle input =
      match selectMode input with
      | Mode.discovery =>
        Except.ok (HandlerOutput.discovery (handleGroupDiscovery catalog input.groupFilter))
      | Mode.groupFiltered => handleGroupFilteredList catalog oracle input
      | Mode.direct => handleDirectKind catalog oracle input) := by
  by_cases h1 : input.groupFilter = ""
  · simp [selectMode, handlerAfterParse, h1]
  · by_cases h2 : input.kind = "all"
    · simp [selectMode, handlerAfterParse, h1, h2]
    · by_cases h3 : input.kind = ""
      · simp [selectMode, handlerAfterParse, h1, h2, h3]
      · simp [selectMode, handlerAfterParse, h1, h2, h3]

/-- The contribution of one `containerStatuses` entry to the conjunction:
its boolean `ready` field, or `true` (no contribution) when the entry is
not an object or the field is missing or mistyped. -/
def readyEntry : JValue → Bool
  | JValue.obj csMap =>
    match asBool (jGet csMap "ready") with
    | some b => b
    | none => true
  | _ => true

/-- The contribution of one `containerStatuses` entry to the restart sum:
its numeric `restartCount`, or `0` when the entry is not an object or the
field is missing or mistyped. -/
def restartEntry : JValue → Int
  | JValue.obj csMap =>
    match asNum (jGet csMap "restartCount") with
    | some rc => rc
    | none => 0
  | _ => 0

/-- One step of the container-status loop conjoins the entry's ready bit
and adds its restart count. -/
theorem podCsStep_eq (acc : Bool × Int) (cs : JValue) :
    podCsStep acc cs = (acc.1 && readyEntry cs, acc.2 + restartEntry cs) := by
  cases cs with
  | obj csMap =>
    simp only [podCsStep, readyEntry, restartEntry]
    cases hb : asBool (jGet csMap "ready") <;>
      cases hn : asNum (jGet csMap "restartCount") <;> simp
  | _ => simp [podCsStep, readyEntry, restartEntry]

/-- The container-status loop computes the conjunction of the ready bits
and the sum of the restart counts. -/
theorem foldl_podCsStep (csArr : List JValue) (b : Bool) (n : Int) :
    csArr.foldl podCsStep (b, n) =
      (b && csArr.all readyEntry, n + (csArr.map restartEntry).sum) := by
  induction csArr generalizing b n with
  | nil => simp
  | cons c rest ih =>
    rw [List.foldl_cons, podCsStep_eq, ih]
    simp [Bool.and_assoc, Int.add_assoc]

/-- **C2** (amended).  For every Pod item projected without details: when
`status.containerStatuses` is present as an array, `ready` is the
conjunction of the boolean `ready` fields over its entries (a missing or
mistyped entry contributing vacuous truth, so an empty array yields `true`)
and `restartCount` is the sum of the numeric `restartCount` fields (a
missing or mistyped entry contributing zero); when the array is absent or
mistyped — including when the whole status map is absent — `ready` is
`false` and `restartCount` is `0` (the Go zero values, never touched by the
loop). -/
theorem c2_pod_ready_restarts (item : RawItem) :
    (∀ status csArr, nestedMap item "status" = some status →
      asArr (jGet status "containerStatuses") = some csArr →
      (projectPod item).ready = csArr.all readyEntry ∧
      (projectPod item).restartCount = (csArr.map restartEntry).sum) ∧
    (∀ status, nestedMap item "status" = some status →
      asArr (jGet status "containerStatuses") = none →
      (projectPod item).ready = false ∧ (projectPod item).restartCount = 0) ∧
    (nestedMap item "status" = none →
      (projectPod item).ready = false ∧ (projectPod item).restartCount = 0) := by
  refine ⟨?_, ?_, ?_⟩
  · intro status csArr hs hc
    simp only [projectPod, hs, hc, foldl_podCsStep]
    constructor
    · simp
    · simp
  · intro status hs hc
    simp only [projectPod, hs, hc]
    constructor
    · split <;> split <;> rfl
    · split <;> split <;> rfl
  · intro hs
    simp [projectPod, hs]

/-- The status map of the Pod item that has no `containerStatuses`. -/
def statusNoCS : JObj := [("phase", JValue.str "Running")]

/-- A Pod item whose status carries no `containerStatuses` array. -/
def podItemNoCS : RawItem :=
  [("metadata", JValue.obj [("name", JValue.str "p1")]),
   ("status", JValue.obj statusNoCS)]

/-- **C2, counterexample.**  The claim says `ready` is vacuously true when
`containerStatuses` is absent; but the loop that sets `ready` runs only
when the array is present, so an item without the array keeps the zero
value `false`. -/
theorem c2_counterexample :
    nestedMap podItemNoCS "status" = some statusNoCS ∧
    jGet statusNoCS "containerStatuses" = none ∧
    (projectPod podItemNoCS).ready = false :=
  ⟨rfl, rfl, rfl⟩

/-- The container statuses of the spec's Pod readiness example. -/
def csArrEx : List JValue :=
  [JValue.obj [("ready", JValue.jbool true), ("restartCount", JValue.num 2)],
   JValue.obj [("ready", JValue.jbool false), ("restartCount", JValue.num 1)]]

/-- The status map of the spec's Pod readiness example. -/
def statusEx : JObj := [("containerStatuses", JValue.arr csArrEx)]

/-- The spec's Pod readiness example item. -/
def podItemEx : RawItem :=
  [("metadata", JValue.obj [("name", JValue.str "p2")]),
   ("status", JValue.obj statusEx)]

/-- **C2, witness.**  The spec's example: container statuses
`[{ready: true, restartCount: 2}, {ready: false, restartCount: 1}]` yield
`ready = false` and `restartCount = 3`. -/
theorem c2_witness :
    (projectPod podItemEx).ready = false ∧ (projectPod podItemEx).restartCount = 3 := by
  have h := (c2_pod_ready_restarts podItemEx).1 statusEx csArrEx rfl rfl
  exact ⟨h.1.trans (by decide), h.2.trans (by decide)⟩

/-- The port-string format as the claim states it: the name followed by a
colon when present, then the decimal port number when present, then a slash
and the protocol when present, with no other separators. -/
def formatPortSpec (portMap : JObj) : String :=
  (match asString (jGet portMap "name") with
   | some name => name ++ ":"
   | none => "") ++
  (match asNum (jGet portMap "port") with
   | some port => toString port
   | none => "") ++
  (match asString (jGet portMap "protocol") with
   | some protocol => "/" ++ protocol
   | none => "")

/-- The incremental port-string construction equals the three-segment
concatenation of the claim. -/
theorem formatPort_eq_spec (portMap : JObj) :
    formatPort portMap = formatPortSpec portMap := by
  rw [formatPort, formatPortSpec]
  cases asString (jGet portMap "name") <;> cases asNum (jGet portMap "port") <;>
    cases asString (jGet portMap "protocol") <;>
      (apply String.ext; simp [String.data_append, List.append_assoc])

/-- The port loop keeps exactly the object entries, each formatted. -/
theorem collectPorts_eq_filterMap (ports : List JValue) :
    collectPorts ports = ports.filterMap (fun p =>
      match p with
      | JValue.obj portMap => some (formatPortSpec portMap)
      | _ => none) := by
  induction ports with
  | nil => rfl
  | cons p rest ih =>
    cases p <;> simp [collectPorts, ih, formatPort_eq_spec, List.filterMap_cons]

/-- **C8** (amended).  For every Service item projected without details
whose `spec.ports` is present as an array, the summary's `ports` contains
one string per **object-typed** entry of the array, in order (entries of
any other type are skipped, contributing no string), each built by
concatenating the name followed by `":"` (only when the name is present),
then the port number (only when present), then `"/"` followed by the
protocol (only when present), with no other separators. -/
theorem c8_service_ports (item : RawItem) (spec : JObj) (ports : List JValue)
    (hs : nestedMap item "spec" = some spec)
    (hp : asArr (jGet spec "ports") = some ports) :
    (projectService item).ports = ports.filterMap (fun p =>
      match p with
      | JValue.obj portMap => some (formatPortSpec portMap)
      | _ => none) := by
  simp only [projectService, hs, hp]
  exact collectPorts_eq_filterMap ports

/-- The malformed spec map whose `ports` array holds a non-object entry. -/
def svcSpecBad : JObj := [("ports", JValue.arr [JValue.str "bogus"])]

/-- A Service item whose single port entry is a string, not an object. -/
def svcItemBad : RawItem :=
  [("metadata", JValue.obj [("name", JValue.str "s1")]),
   ("spec", JValue.obj svcSpecBad)]

/-- **C8, counterexample.**  The claim says `ports` holds one string per
entry of `spec.ports`; but a non-object entry is skipped entirely, so an
array of one string entry yields an empty `ports` list. -/
theorem c8_counterexample :
    asArr (jGet svcSpecBad "ports") = some [JValue.str "bogus"] ∧
    (projectService svcItemBad).ports = [] :=
  ⟨rfl, rfl⟩

/-- The spec's example port `{name: "http", port: 80, protocol: "TCP"}`. -/
def portHttp : JObj :=
  [("name", JValue.str "http"), ("port", JValue.num 80), ("protocol", JValue.str "TCP")]

/-- The spec's example port `{port: 443}`. -/
def port443 : JObj := [("port", JValue.num 443)]

/-- The spec map of the two-port Service example. -/
def svcSpecEx : JObj := [("ports", JValue.arr [JValue.obj portHttp, JValue.obj port443])]

/-- The two-port Service example item. -/
def svcItemEx : RawItem := [("spec", JValue.obj svcSpecEx)]

/-- **C8, witness.**  The spec's examples: `{name: "http", port: 80,
protocol: "TCP"}` formats as `"http:80/TCP"` and `{port: 443}` as
`"443"`. -/
theorem c8_witness : (projectService svcItemEx).ports = ["http:80/TCP", "443"] := by
  have h := c8_service_ports svcItemEx svcSpecEx
    [JValue.obj portHttp, JValue.obj port443] rfl rfl
  rw [h]
  decide

/-- **C9.**  Status projection is pure: for every kind and raw item the
threaded projection returns the item exactly as received (no branch of the
dispatch mutates it), and therefore projecting the item a second time —
through the item the first projection left behind — yields an identical
summary. -/
theorem c9_projection_pure (kind : String) (item : RawItem) :
    (projectItemS kind item).2 = item ∧
    projectItem kind ((projectItemS kind item).2) = projectItem kind item := by
  have h2 : (projectItemS kind item).2 = item := by
    rw [projectItemS]
    split
    · rfl
    split
    · rfl
    split
    · rfl
    split <;> rfl
  exact ⟨h2, by rw [h2]⟩

/-- `parseShowDetails` touches no field but `showDetails`. -/
theorem parseShowDetails_fields (args : Args) (i : ListResourcesInput) :
    (parseShowDetails args i).limit = i.limit ∧
    (parseShowDetails args i).timeoutSeconds = i.timeoutSeconds ∧
    (parseShowDetails args i).namespace_ = i.namespace_ := by
  rw [parseShowDetails]
  cases getBoolArg args "showDetails" <;> exact ⟨rfl, rfl, rfl⟩

/-- `parseTimeout` sets only `timeoutSeconds`, and only from a supplied
positive number. -/
theorem parseTimeout_fields (args : Args) (i : ListResourcesInput) :
    (parseTimeout args i).limit = i.limit ∧
    (parseTimeout args i).namespace_ = i.namespace_ ∧
    (parseTimeout args i).timeoutSeconds =
      (match getNumArg args "timeoutSeconds" with
       | some t => if t > 0 then t else i.timeoutSeconds
       | none => i.timeoutSeconds) := by
  cases h : getNumArg args "timeoutSeconds" with
  | none => simp [parseTimeout, h]
  | some t => by_cases ht : t > 0 <;> simp [parseTimeout, h, ht]

/-- `parseLimit` sets only `limit`, and only from a supplied positive
number. -/
theorem parseLimit_fields (args : Args) (i : ListResourcesInput) :
    (parseLimit args i).timeoutSeconds = i.timeoutSeconds ∧
    (parseLimit args i).namespace_ = i.namespace_ ∧
    (parseLimit args i).limit =
      (match getNumArg args "limit" with
       | some n => if n > 0 then n else i.limit
       | none => i.limit) := by
  cases h : getNumArg args "limit" with
  | none => simp [parseLimit, h]
  | some n => by_cases hn : n > 0 <;> simp [parseLimit, h, hn]

/-- `parseFieldSelector` touches no field but `fieldSelector`. -/
theorem parseFieldSelector_fields (args : Args) (i : ListResourcesInput) :
    (parseFieldSelector args i).limit = i.limit ∧
    (parseFieldSelector args i).timeoutSeconds = i.timeoutSeconds ∧
    (parseFieldSelector args i).namespace_ = i.namespace_ := by
  rw [parseFieldSelector]
  cases getStrArg args "fieldSelector" <;> exact ⟨rfl, rfl, rfl⟩

/-- A successful `parseLabelSelector` touches no field but
`labelSelector`. -/
theorem parseLabelSelector_ok_fields (v : Validators) (args : Args)
    (i out : ListResourcesInput) (h : parseLabelSelector v args i = Except.ok out) :
    out.limit = i.limit ∧ out.timeoutSeconds = i.timeoutSeconds ∧
    out.namespace_ = i.namespace_ := by
  rw [parseLabelSelector] at h
  cases hg : getStrArg args "labelSelector" with
  | none =>
    rw [hg] at h
    injection h with h2
    rw [← h2]
    exact ⟨rfl, rfl, rfl⟩
  | some ls =>
    rw [hg] at h
    have h3 : (match v.validateLabelSelector ls with
      | some e => Except.error ("invalid labelSelector: " ++ e)
      | none => Except.ok { i with labelSelector := ls }) = Except.ok out := h
    cases hv : v.validateLabelSelector ls with
    | some e => rw [hv] at h3; cases h3
    | none =>
      rw [hv] at h3
      injection h3 with h2
      rw [← h2]
      exact ⟨rfl, rfl, rfl⟩

/-- A successful `parseNamespaceArg` preserves `limit` and
`timeoutSeconds`, and a supplied empty namespace string comes out as
`metav1.NamespaceAll`. -/
theorem parseNamespaceArg_ok_fields (v : Validators) (args : Args)
    (i out : ListResourcesInput) (h : parseNamespaceArg v args i = Except.ok out) :
    out.limit = i.limit ∧ out.timeoutSeconds = i.timeoutSeconds ∧
    (getStrArg args "namespace" = some "" → out.namespace_ = NamespaceAll) := by
  rw [parseNamespaceArg] at h
  cases hg : getStrArg args "namespace" with
  | none =>
    rw [hg] at h
    have h3 : (if i.namespace_ == "" then Except.ok { i with namespace_ := NamespaceAll }
      else Except.ok i) = Except.ok out := h
    by_cases hns : (i.namespace_ == "") = true
    · rw [if_pos hns] at h3
      injection h3 with h2
      rw [← h2]
      exact ⟨rfl, rfl, fun hc => Option.noConfusion hc⟩
    · rw [if_neg hns] at h3
      injection h3 with h2
      rw [← h2]
      exact ⟨rfl, rfl, fun hc => Option.noConfusion hc⟩
  | some ns =>
    rw [hg] at h
    cases hv : v.validateNamespace ns with
    | some e =>
      have h3 : Except.error ("invalid namespace: " ++ e) = Except.ok out := by
        have h4 : (match (match v.validateNamespace ns with
          | some e => Except.error ("invalid namespace: " ++ e)
          | none => Except.ok { i with namespace_ := ns }) with
          | Except.error e => Except.error e
          | Except.ok input =>
            if input.namespace_ == "" then Except.ok { input with namespace_ := NamespaceAll }
            else Except.ok input) = Except.ok out := h
        rw [hv] at h4
        exact h4
      cases h3
    | none =>
      have h4 : (match (match v.validateNamespace ns with
        | some e => Except.error ("invalid namespace: " ++ e)
        | none => Except.ok { i with namespace_ := ns }) with
        | Except.error e => Except.error e
        | Except.ok input =>
          if input.namespace_ == "" then Except.ok { input with namespace_ := NamespaceAll }
          else Except.ok input) = Except.ok out := h
      rw [hv] at h4
      have h5 : (if ns == "" then
          Except.ok { i with namespace_ := NamespaceAll }
        else Except.ok { i with namespace_ := ns }) = Except.ok out := h4
      by_cases hns : (ns == "") = true
      · rw [if_pos hns] at h5
        injection h5 with h2
        rw [← h2]
        exact ⟨rfl, rfl, fun _ => rfl⟩
      · rw [if_neg hns] at h5
        injection h5 with h2
        rw [← h2]
        refine ⟨rfl, rfl, fun hc => ?_⟩
        injection hc with hc2

/-- A successful `parseKind` preserves `limit`, `timeoutSeconds` and
`namespace_`. -/
theorem parseKind_ok_fields (v : Validators) (args : Args)
    (i out : ListResourcesInput) (h : parseKind v args i = Except.ok out) :
    out.limit = i.limit ∧ out.timeoutSeconds = i.timeoutSeconds ∧
    out.namespace_ = i.namespace_ := by
  rw [parseKind] at h
  cases hg : getStrArg args "kind" with
  | none =>
    rw [hg] at h
    have h3 : (if i.groupFilter == "" then
        (Except.error "kind must be provided when groupFilter is not specified" :
          Except String ListResourcesInput)
      else Except.ok i) = Except.ok out := h
    by_cases hgf : (i.groupFilter == "") = true
    · rw [if_pos hgf] at h3; cases h3
    · rw [if_neg hgf] at h3
      injection h3 with h2
      rw [← h2]
      exact ⟨rfl, rfl, rfl⟩
  | some kindVal =>
    rw [hg] at h
    have h4 : (if (kindVal != "") = true then
        (match v.validateKind kindVal with
         | some e => Except.error ("invalid kind: " ++ e)
         | none => Except.ok { i with kind := kindVal })
      else if (i.groupFilter == "") = true then
        (Except.error "kind must be provided when groupFilter is not specified" :
          Except String ListResourcesInput)
      else Except.ok i) = Except.ok out := h
    by_cases hk : (kindVal != "") = true
    · rw [if_pos hk] at h4
      cases hv : v.validateKind kindVal with
      | some e => rw [hv] at h4; cases h4
      | none =>
        rw [hv] at h4
        injection h4 with h2
        rw [← h2]
        exact ⟨rfl, rfl, rfl⟩
    · rw [if_neg hk] at h4
      by_cases hgf : (i.groupFilter == "") = true
      · rw [if_pos hgf] at h4; cases h4
      · rw [if_neg hgf] at h4
        injection h4 with h2
        rw [← h2]
        exact ⟨rfl, rfl, rfl⟩

/-- `parseGroupFilter` touches no field but `groupFilter`. -/
theorem parseGroupFilter_fields (args : Args) (i : ListResourcesInput) :
    (parseGroupFilter args i).limit = i.limit ∧
    (parseGroupFilter args i).timeoutSeconds = i.timeoutSeconds ∧
    (parseGroupFilter args i).namespace_ = i.namespace_ := by
  rw [parseGroupFilter]
  cases getStrArg args "groupFilter" <;> exact ⟨rfl, rfl, rfl⟩

/-- What a successful parse guarantees about the fields the List-Options
Normalizer consumes: `limit` and `timeoutSeconds` hold the supplied value
only when it was positive (and the zero value otherwise), and a supplied
empty namespace string has been replaced by `metav1.NamespaceAll`. -/
theorem parse_ok_fields (v : Validators) (args : Args) (input : ListResourcesInput)
    (h : parseAndValidateListParams v args = Except.ok input) :
    input.limit = (match getNumArg args "limit" with
      | some n => if n > 0 then n else 0
      | none => 0) ∧
    input.timeoutSeconds = (match getNumArg args "timeoutSeconds" with
      | some n => if n > 0 then n else 0
      | none => 0) ∧
    (getStrArg args "namespace" = some "" → input.namespace_ = NamespaceAll) := by
  rw [parseAndValidateListParams] at h
  have h1 : (match parseKind v args (parseGroupFilter args initialInput) with
    | Except.error e => Except.error e
    | Except.ok input2 =>
      match parseNamespaceArg v args input2 with
      | Except.error e => Except.error e
      | Except.ok input3 =>
        match parseLabelSelector v args input3 with
        | Except.error e => Except.error e
        | Except.ok input4 =>
          Except.ok (parseShowDetails args
            (parseTimeout args (parseLimit args (parseFieldSelector args input4))))) =
      Except.ok input := h
  cases hk : parseKind v args (parseGroupFilter args initialInput) with
  | error e =>
    rw [hk] at h1
    exact Except.noConfusion
      (show (Except.error e : Except String ListResourcesInput) = Except.ok input from h1)
  | ok input2 =>
    rw [hk] at h1
    have h2 : (match parseNamespaceArg v args input2 with
      | Except.error e => Except.error e
      | Except.ok input3 =>
        match parseLabelSelector v args input3 with
        | Except.error e => Except.error e
        | Except.ok input4 =>
          Except.ok (parseShowDetails args
            (parseTimeout args (parseLimit args (parseFieldSelector args input4))))) =
        Except.ok input := h1
    cases hn : parseNamespaceArg v args input2 with
    | error e =>
      rw [hn] at h2
      exact Except.noConfusion
        (show (Except.error e : Except String ListResourcesInput) = Except.ok input from h2)
    | ok input3 =>
      rw [hn] at h2
      have h3 : (match parseLabelSelector v args input3 with
        | Except.error e => Except.error e
        | Except.ok input4 =>
          Except.ok (parseShowDetails args
            (parseTimeout args (parseLimit args (parseFieldSelector args input4))))) =
          Except.ok input := h2
      cases hl : parseLabelSelector v args input3 with
      | error e =>
        rw [hl] at h3
        exact Except.noConfusion
          (show (Except.error e : Except String ListResourcesInput) = Except.ok input from h3)
      | ok input4 =>
        rw [hl] at h3
        injection h3 with h4
        obtain ⟨k1, k2, k3⟩ := parseKind_ok_fields v args _ input2 hk
        obtain ⟨n1, n2, n3⟩ := parseNamespaceArg_ok_fields v args input2 input3 hn
        obtain ⟨l1, l2, l3⟩ := parseLabelSelector_ok_fields v args input3 input4 hl
        obtain ⟨f1, f2, f3⟩ := parseFieldSelector_fields args input4
        obtain ⟨m1, m2, m3⟩ := parseLimit_fields args (parseFieldSelector args input4)
        obtain ⟨t1, t2, t3⟩ := parseTimeout_fields args
          (parseLimit args (parseFieldSelector args input4))
        obtain ⟨s1, s2, s3⟩ := parseShowDetails_fields args
          (parseTimeout args (parseLimit args (parseFieldSelector args input4)))
        obtain ⟨g1, g2, g3⟩ := parseGroupFilter_fields args initialInput
        have hlim0 : input4.limit = 0 := by
          rw [l1, n1, k1, g1]
          rfl
        have hts0 : input4.timeoutSeconds = 0 := by
          rw [l2, n2, k2, g2]
          rfl
        refine ⟨?_, ?_, ?_⟩
        · rw [← h4, s1, t1, m3, f1, hlim0]
        · rw [← h4, s2, t3, m1, f2, hts0]
        · intro hc
          rw [← h4, s3, t2, m2, f3, l3]
          exact n3 hc

/-- The `Limit` written by `buildListOptions`: the parsed value when
positive, else the zero value (meaning "unbounded"/omitted). -/
theorem buildListOptions_limit (i : ListResourcesInput) :
    (buildListOptions i).limit = if i.limit > 0 then i.limit else 0 := by
  simp only [buildListOptions]
  split <;> split <;> rfl

/-- The `TimeoutSeconds` pointer written by `buildListOptions`: always set,
to the parsed value when positive and to the default 30 otherwise. -/
theorem buildListOptions_timeout (i : ListResourcesInput) :
    (buildListOptions i).timeoutSeconds =
      some (if i.timeoutSeconds > 0 then i.timeoutSeconds else 30) := by
  simp only [buildListOptions]
  split <;> rfl

/-- **C7.**  For every argument mapping accepted by the parser (under any
choice of the external validators): the normalized list query carries a
limit (a non-zero `Limit`) only when the caller supplied a number strictly
greater than 0 — and then exactly that number — and carries the zero
"absent" value otherwise; its timeout is 30 seconds whenever the supplied
timeout is absent or non-positive and the supplied value otherwise; and a
caller-supplied empty namespace string results in the
`metav1.NamespaceAll` scope. -/
theorem c7_list_options_defaults (v : Validators) (args : Args)
    (input : ListResourcesInput)
    (h : parseAndValidateListParams v args = Except.ok input) :
    ((buildListOptions input).limit ≠ 0 →
      ∃ n, getNumArg args "limit" = some n ∧ 0 < n ∧ (buildListOptions input).limit = n) ∧
    ((∀ n, getNumArg args "limit" = some n → n ≤ 0) →
      (buildListOptions input).limit = 0) ∧
    ((∀ n, getNumArg args "timeoutSeconds" = some n → n ≤ 0) →
      (buildListOptions input).timeoutSeconds = some 30) ∧
    (∀ n, getNumArg args "timeoutSeconds" = some n → 0 < n →
      (buildListOptions input).timeoutSeconds = some n) ∧
    (getStrArg args "namespace" = some "" → input.namespace_ = NamespaceAll) := by
  obtain ⟨hlim, hts, hns⟩ := parse_ok_fields v args input h
  refine ⟨?_, ?_, ?_, ?_, hns⟩
  · intro hne
    cases hm : getNumArg args "limit" with
    | none =>
      rw [buildListOptions_limit, hlim, hm] at hne
      simp at hne
    | some n =>
      by_cases hn : n > 0
      · refine ⟨n, rfl, hn, ?_⟩
        rw [buildListOptions_limit, hlim, hm]
        simp [hn]
      · rw [buildListOptions_limit, hlim, hm] at hne
        simp [hn] at hne
  · intro hall
    rw [buildListOptions_limit, hlim]
    cases hm : getNumArg args "limit" with
    | none => simp
    | some n =>
      have hn := hall n hm
      have hn2 : ¬ (n > 0) := by omega
      simp [hn2]
  · intro hall
    rw [buildListOptions_timeout, hts]
    cases hm : getNumArg args "timeoutSeconds" with
    | none => simp
    | some n =>
      have hn := hall n hm
      have hn2 : ¬ (n > 0) := by omega
      simp [hn2]
  · intro n hm hpos
    rw [buildListOptions_timeout, hts, hm]
    simp [hpos]

/-- Validators that accept everything, standing in for the concrete
`validation` package in the witnesses. -/
def vTrivial : Validators :=
  { validateKind := fun _ => none, validateNamespace := fun _ => none,
    validateLabelSelector := fun _ => none }

/-- The argument mapping of the C7 witness: a kind, an explicitly empty
namespace, and no limit or timeout. -/
def argsW : Args := [("kind", JValue.str "pods"), ("namespace", JValue.str "")]

/-- The parsed form of `argsW`. -/
def inputW : ListResourcesInput :=
  { kind := "pods", groupFilter := "", namespace_ := NamespaceAll, labelSelector := "",
    fieldSelector := "", limit := 0, timeoutSeconds := 0, showDetails := false }

/-- **C7, witness.**  The spec's example: no limit or timeout supplied and
an empty namespace yield `{limit: absent, timeout: 30, namespaceScope:
all}`. -/
theorem c7_witness :
    (buildListOptions inputW).limit = 0 ∧
    (buildListOptions inputW).timeoutSeconds = some 30 ∧
    inputW.namespace_ = NamespaceAll := by
  have h := c7_list_options_defaults vTrivial argsW inputW rfl
  exact ⟨h.2.1 (fun n hn => by cases hn), h.2.2.1 (fun n hn => by cases hn),
    h.2.2.2.2 rfl⟩

/-- **C10.**  For every argument mapping whose `groupFilter` argument is
absent, non-string, or empty: whenever the `kind` argument is absent, not a
string, or the empty string, parsing fails with the "kind must be
provided" error — under any choice of validators — and the handler returns
that error before consulting the catalog fetch or issuing any list call
(its result does not depend on either). -/
theorem c10_kind_required (v : Validators) (fetch : Except String Catalog)
    (oracle : ListOracle) (args : Args)
    (hgf : getStrArg args "groupFilter" = none ∨ getStrArg args "groupFilter" = some "")
    (hk : getStrArg args "kind" = none ∨ getStrArg args "kind" = some "") :
    parseAndValidateListParams v args =
      Except.error "kind must be provided when groupFilter is not specified" ∧
    handlerModel v fetch oracle args =
      Except.error "kind must be provided when groupFilter is not specified" := by
  have hgf0 : (parseGroupFilter args initialInput).groupFilter = "" := by
    rw [parseGroupFilter]
    cases hgf with
    | inl h => rw [h]; rfl
    | inr h => rw [h]
  have hkerr : parseKind v args (parseGroupFilter args initialInput) =
      Except.error "kind must be provided when groupFilter is not specified" := by
    rw [parseKind]
    cases hk with
    | inl h =>
      rw [h]
      rw [if_pos (by simp [hgf0])]
    | inr h =>
      rw [h]
      show (if (("" : String) != "") = true then
          (match v.validateKind "" with
           | some e => Except.error ("invalid kind: " ++ e)
           | none => Except.ok { parseGroupFilter args initialInput with kind := "" })
        else if ((parseGroupFilter args initialInput).groupFilter == "") = true then
          Except.error "kind must be provided when groupFilter is not specified"
        else Except.ok (parseGroupFilter args initialInput)) =
          Except.error "kind must be provided when groupFilter is not specified"
      rw [if_neg (by simp), if_pos (by simp [hgf0])]
  have hperr : parseAndValidateListParams v args =
      Except.error "kind must be provided when groupFilter is not specified" := by
    rw [parseAndValidateListParams]
    show (match parseKind v args (parseGroupFilter args initialInput) with
      | Except.error e => Except.error e
      | Except.ok input2 =>
        match parseNamespaceArg v args input2 with
        | Except.error e => Except.error e
        | Except.ok input3 =>
          match parseLabelSelector v args input3 with
          | Except.error e => Except.error e
          | Except.ok input4 =>
            Except.ok (parseShowDetails args
              (parseTimeout args (parseLimit args (parseFieldSelector args input4))))) = _
    rw [hkerr]
  refine ⟨hperr, ?_⟩
  rw [handlerModel, hperr]

/-- **C10, witness.**  With an empty argument mapping, parsing fails with
the "kind must be provided" error and the handler returns it unchanged,
regardless of catalog and transport. -/
theorem c10_witness :
    parseAndValidateListParams vTrivial [] =
      Except.error "kind must be provided when groupFilter is not specified" ∧
    handlerModel vTrivial (Except.ok catTwoGroups) oracleFail [] =
      Except.error "kind must be provided when groupFilter is not specified" :=
  c10_kind_required vTrivial (Except.ok catTwoGroups) oracleFail []
    (Or.inl rfl) (Or.inl rfl)

end KubernetesMcp
